import Mathlib

/-!
Verification of the Veromedia animated page against its design description.

The development shallowly embeds the animation logic of the repository:
the per-frame exponential easing of a numeric parameter vector toward a
section-dependent target configuration, the section-to-configuration
lookup with its hero fallback, the scale-based shape-morphing variant,
the mouse-coordinate normalization, and the top-level error boundary.
Numeric parameters are modelled over the rationals.
-/

namespace Veromedia

/-- Interpolation routine from the rendering library: lerp x y t returns
the point a fraction t of the way from x to y. -/
def lerp (x y t : ℚ) : ℚ := (1 - t) * x + t * y

/-- Per-field formula of the vector lerp used by the morphing variant:
the current value moves toward v by the fraction alpha of the gap. -/
def vecLerp (cur v alpha : ℚ) : ℚ := cur + (v - cur) * alpha

/-- Visual configuration record attached to each page section in the
single-shape variant: a display color plus five numeric material and
motion parameters. -/
structure SectionConfig where
  color : String
  distortion : ℚ
  chromaticAberration : ℚ
  roughness : ℚ
  scale : ℚ
  speed : ℚ
deriving Repr, DecidableEq

/-- Configuration of the hero section. -/
def heroConfig : SectionConfig :=
  { color := "#ffffff", distortion := 2/5, chromaticAberration := 1/10,
    roughness := 1/20, scale := 7/2, speed := 1 }

/-- Configuration of the work section. -/
def workConfig : SectionConfig :=
  { color := "#ffffff", distortion := 0, chromaticAberration := 3/2,
    roughness := 0, scale := 9/2, speed := 1/5 }

/-- Configuration of the agency section. -/
def agencyConfig : SectionConfig :=
  { color := "#C67C4E", distortion := 3/2, chromaticAberration := 1/5,
    roughness := 1/5, scale := 3, speed := 3 }

/-- Configuration of the contact section. -/
def contactConfig : SectionConfig :=
  { color := "#C67C4E", distortion := 1/5, chromaticAberration := 1/2,
    roughness := 1/10, scale := 2, speed := 1/2 }

/-- The section configuration table, one record per named section. -/
structure SectionTable where
  hero : SectionConfig
  work : SectionConfig
  agency : SectionConfig
  contact : SectionConfig
deriving Repr, DecidableEq

/-- The table literal defined once at module level in the source. -/
def sectionConfigsTable : SectionTable :=
  { hero := heroConfig, work := workConfig,
    agency := agencyConfig, contact := contactConfig }

/-- Property lookup on the table object: a defined record for the four
section names, undefined for every other key. -/
def tableLookup (t : SectionTable) (s : String) : Option SectionConfig :=
  if s = "hero" then some t.hero
  else if s = "work" then some t.work
  else if s = "agency" then some t.agency
  else if s = "contact" then some t.contact
  else none

/-- SECTION_CONFIGS of the single-shape variant, as a lookup function. -/
def SECTION_CONFIGS (s : String) : Option SectionConfig :=
  tableLookup sectionConfigsTable s

/-- Target lookup used by the frame callback: the entry of the active
section, or the hero entry when the key is not in the table. -/
def targetConfigOf (t : SectionTable) (activeSection : String) : SectionConfig :=
  (tableLookup t activeSection).getD t.hero

/-- Target lookup against the module-level table. -/
def targetConfig (activeSection : String) : SectionConfig :=
  targetConfigOf sectionConfigsTable activeSection

/-- Blend factor computed each frame from the elapsed frame time. -/
def lerpFactor (delta : ℚ) : ℚ := 5/2 * delta

/-- One frame update of the current configuration vector against a
given table: the color is copied from the target, each numeric field is
lerped toward the target field with the frame blend factor. -/
def stepCurrentConfigOf (t : SectionTable) (cur : SectionConfig)
    (activeSection : String) (delta : ℚ) : SectionConfig :=
  let target := targetConfigOf t activeSection
  { color := target.color
    distortion := lerp cur.distortion target.distortion (lerpFactor delta)
    chromaticAberration :=
      lerp cur.chromaticAberration target.chromaticAberration (lerpFactor delta)
    roughness := lerp cur.roughness target.roughness (lerpFactor delta)
    scale := lerp cur.scale target.scale (lerpFactor delta)
    speed := lerp cur.speed target.speed (lerpFactor delta) }

/-- One frame update of the current configuration vector. -/
def stepCurrentConfig (cur : SectionConfig) (activeSection : String)
    (delta : ℚ) : SectionConfig :=
  stepCurrentConfigOf sectionConfigsTable cur activeSection delta

/-- Names of the five numeric fields of the parameter vector. -/
inductive NumField
  | distortion
  | chromaticAberration
  | roughness
  | scale
  | speed
deriving Repr, DecidableEq

/-- Value of a numeric field of a configuration record. -/
def fieldVal (F : NumField) (c : SectionConfig) : ℚ :=
  match F with
  | .distortion => c.distortion
  | .chromaticAberration => c.chromaticAberration
  | .roughness => c.roughness
  | .scale => c.scale
  | .speed => c.speed

/-- Iterated frame update with a fixed active section and frame time. -/
def iterCurrent (activeSection : String) (delta : ℚ)
    (init : SectionConfig) : ℕ → SectionConfig
  | 0 => init
  | n + 1 => stepCurrentConfig (iterCurrent activeSection delta init n) activeSection delta

/-- Largest initial field distance between two configuration records. -/
def maxFieldDist (a b : SectionConfig) : ℚ :=
  max (max (max (max |a.distortion - b.distortion|
    |a.chromaticAberration - b.chromaticAberration|)
    |a.roughness - b.roughness|) |a.scale - b.scale|) |a.speed - b.speed|

/-- Mobile adjustment applied to the displayed sizes when the viewport
is narrow, shared by both scene variants. -/
def mobileFactor (viewportWidth : ℚ) : ℚ :=
  if viewportWidth < 7 then 3/5 else 1

/-- Normalized pointer coordinates. -/
structure Mouse where
  x : ℚ
  y : ℚ
deriving Repr, DecidableEq

/-- Pointer update stored on every mouse-move event: client coordinates
are mapped through the window dimensions onto [-1, 1]. -/
def normMouse (clientX clientY innerWidth innerHeight : ℚ) : Mouse :=
  { x := clientX / innerWidth * 2 - 1
    y := -(clientY / innerHeight) * 2 + 1 }

/-- Fields written to the transmission material each frame. -/
structure MaterialState where
  distortion : ℚ
  chromaticAberration : ℚ
  roughness : ℚ
  color : String
deriving Repr, DecidableEq

/-- Fields written to the displayed mesh each frame. -/
structure MeshState where
  scaleScalar : ℚ
  rotationX : ℚ
  rotationY : ℚ
deriving Repr, DecidableEq

/-- State touched by one frame of the single-shape scene: the
configuration table visible to the callback plus the mutable current
vector and the mesh and material fields. -/
structure WorldState where
  configs : SectionTable
  currentConfig : SectionConfig
  material : MaterialState
  mesh : MeshState
deriving Repr, DecidableEq

/-- Full frame callback of the single-shape scene: the current vector
is eased toward the target of the active section, the material fields
and the mesh scale, rotation and mouse parallax are written, and the
configuration table is only read. -/
def veroLensFrame (w : WorldState) (activeSection : String)
    (delta viewportWidth : ℚ) (mouse : Mouse) : WorldState :=
  let cur := stepCurrentConfigOf w.configs w.currentConfig activeSection delta
  let rotX := w.mesh.rotationX + delta * (1/5) * cur.speed
  let rotY := w.mesh.rotationY + delta * (3/10) * cur.speed
  { configs := w.configs
    currentConfig := cur
    material := { distortion := cur.distortion
                  chromaticAberration := cur.chromaticAberration
                  roughness := cur.roughness
                  color := cur.color }
    mesh := { scaleScalar := cur.scale * mobileFactor viewportWidth
              rotationX := rotX + (mouse.y * (1/2) - rotX) * (1/10)
              rotationY := rotY + (mouse.x * (1/2) - rotY) * (1/10) } }

/-- Configuration record of the shape-morphing variant: a shape name, a
display color and the material settings passed to the glass material. -/
structure ShapeConfig where
  shape : String
  color : String
  roughness : ℚ
  ior : ℚ
  chromaticAberration : ℚ
deriving Repr, DecidableEq

/-- Hero entry of the morphing table. -/
def heroShapeConfig : ShapeConfig :=
  { shape := "knot", color := "#ffffff", roughness := 1/20, ior := 3/2,
    chromaticAberration := 1/10 }

/-- Work entry of the morphing table. -/
def workShapeConfig : ShapeConfig :=
  { shape := "prism", color := "#ffffff", roughness := 0, ior := 2,
    chromaticAberration := 3/2 }

/-- Agency entry of the morphing table. -/
def agencyShapeConfig : ShapeConfig :=
  { shape := "capsule", color := "#C67C4E", roughness := 1/5, ior := 6/5,
    chromaticAberration := 1/5 }

/-- Contact entry of the morphing table. -/
def contactShapeConfig : ShapeConfig :=
  { shape := "orb", color := "#C67C4E", roughness := 1/10, ior := 3/2,
    chromaticAberration := 1/2 }

/-- SECTION_CONFIGS of the shape-morphing variant, as a lookup
function on section names. -/
def MORPH_SECTION_CONFIGS (s : String) : Option ShapeConfig :=
  if s = "hero" then some heroShapeConfig
  else if s = "work" then some workShapeConfig
  else if s = "agency" then some agencyShapeConfig
  else if s = "contact" then some contactShapeConfig
  else none

/-- Shape selected by the frame callback: the shape of the active
section entry, or the knot when the key is not in the table. -/
def currentShape (activeSection : String) : String :=
  ((MORPH_SECTION_CONFIGS activeSection).map ShapeConfig.shape).getD "knot"

/-- The four candidate primitives of the morphing scene. -/
inductive Primitive
  | knot
  | prism
  | capsule
  | orb
deriving Repr, DecidableEq

/-- Shape name keying each primitive in the configuration table. -/
def shapeName (p : Primitive) : String :=
  match p with
  | .knot => "knot"
  | .prism => "prism"
  | .capsule => "capsule"
  | .orb => "orb"

/-- Natural display size of each primitive. -/
def naturalSize (p : Primitive) : ℚ :=
  match p with
  | .knot => 3
  | .prism => 7/2
  | .capsule => 5/2
  | .orb => 5/2

/-- Meshes rendered by the morphing component: all four primitives are
unconditionally part of the returned scene graph. -/
def morphingShapeSceneGraph : List Primitive :=
  [Primitive.knot, Primitive.prism, Primitive.capsule, Primitive.orb]

/-- Target scale of a primitive: its natural size times the mobile
adjustment when it carries the active shape, zero otherwise. -/
def targetScale (activeSection : String) (viewportWidth : ℚ)
    (p : Primitive) : ℚ :=
  if shapeName p = currentShape activeSection then
    naturalSize p * mobileFactor viewportWidth
  else 0

/-- Per-frame scale easing of one primitive: a vector lerp toward the
target scale with blend factor delta * 4. -/
def animateScale (cur targetVal delta : ℚ) : ℚ :=
  vecLerp cur targetVal (delta * 4)

/-- One frame of the morphing component: every primitive scale is
eased toward its target scale. -/
def morphFrame (scales : Primitive → ℚ) (activeSection : String)
    (viewportWidth delta : ℚ) : Primitive → ℚ :=
  fun p => animateScale (scales p) (targetScale activeSection viewportWidth p) delta

/-- Rendered output, as a tree of elements and text nodes. -/
inductive Node where
  | text : String → Node
  | elem : String → List Node → Node
deriving Repr

/-- State of the error boundary component. -/
structure EBState where
  hasError : Bool
  error : Option String
deriving Repr

/-- Initial boundary state set in the constructor. -/
def initialEBState : EBState := { hasError := false, error := none }

/-- State derived from a caught error. -/
def getDerivedStateFromError (error : String) : EBState :=
  { hasError := true, error := some error }

/-- Static fallback output of the boundary: a heading and the message
of the stored error. -/
def errorFallback (error : Option String) : Node :=
  Node.elem "div"
    [Node.elem "h1" [Node.text "Something went wrong."],
     Node.elem "pre" (match error with
       | some e => [Node.text e]
       | none => [])]

/-- Render method of the error boundary: the fallback when an error
was recorded, the children otherwise. -/
def boundaryRender (st : EBState) (children : Node) : Node :=
  if st.hasError then errorFallback st.error else children

/-- Property names every plain object inherits from Object.prototype:
bracket access on these keys finds a truthy inherited member (a
built-in function, or the prototype object itself for the proto
accessor) rather than undefined. -/
def objectPrototypeKeys : List String :=
  ["constructor", "hasOwnProperty", "isPrototypeOf", "propertyIsEnumerable",
   "toLocaleString", "toString", "valueOf", "__proto__",
   "__defineGetter__", "__defineSetter__", "__lookupGetter__", "__lookupSetter__"]

/-- Result of a JS bracket access on the configuration object: an own
section record, a truthy member inherited from Object.prototype, or
undefined. -/
inductive JsLookup where
  | undef : JsLookup
  | own : SectionConfig → JsLookup
  | inherited : JsLookup
deriving Repr, DecidableEq

/-- Bracket access on the configuration object under JS member-access
semantics: an own entry for the four section names, the inherited
member for Object.prototype property names, undefined otherwise. -/
def bracketLookup (t : SectionTable) (s : String) : JsLookup :=
  match tableLookup t s with
  | some c => JsLookup.own c
  | none => if s ∈ objectPrototypeKeys then JsLookup.inherited else JsLookup.undef

/-- JS truthiness of a bracket-access result: only undefined is falsy;
own records and inherited members are truthy. -/
def jsTruthy (v : JsLookup) : Bool :=
  match v with
  | JsLookup.undef => false
  | JsLookup.own _ => true
  | JsLookup.inherited => true

/-- Value of the animator target expression, the bracket access with
the hero fallback applied only to a falsy result, under JS
member-access semantics with the prototype chain included. -/
def animatorTargetJs (s : String) : JsLookup :=
  let v := bracketLookup sectionConfigsTable s
  if jsTruthy v then v else JsLookup.own sectionConfigsTable.hero

-- ---------------------------------------------------------------------------
-- Theorems
-- ---------------------------------------------------------------------------

-- Basic lemmas about the easing step

theorem lerp_eq_add (x y t : ℚ) : lerp x y t = x + (y - x) * t := by
  unfold lerp; ring

theorem lerp_sub_target (x y t : ℚ) : lerp x y t - y = (1 - t) * (x - y) := by
  unfold lerp; ring

theorem lerp_sub_self (x y t : ℚ) : lerp x y t - x = (y - x) * t := by
  unfold lerp; ring

theorem fieldVal_step (t : SectionTable) (cur : SectionConfig)
    (sec : String) (dt : ℚ) (F : NumField) :
    fieldVal F (stepCurrentConfigOf t cur sec dt) =
      lerp (fieldVal F cur) (fieldVal F (targetConfigOf t sec)) (lerpFactor dt) := by
  cases F <;> rfl

/-- C1: on every frame each numeric field of the current parameter
vector is updated by the exponential-easing step
new = current + (target - current) * (5/2) * dt, where the target is
the configuration of the active section. -/
theorem frame_easing_step (cur : SectionConfig) (sec : String) (dt : ℚ)
    (F : NumField) :
    fieldVal F (stepCurrentConfig cur sec dt) =
      fieldVal F cur +
        (fieldVal F (targetConfig sec) - fieldVal F cur) * (5/2) * dt := by
  cases F <;>
    simp only [stepCurrentConfig, stepCurrentConfigOf, targetConfig, fieldVal,
      lerp, lerpFactor] <;>
    ring

/-- C7: on every frame step the color field is copied from the target
configuration in a single step, while each numeric field is lerped
toward the target field with the frame blend factor. -/
theorem color_swapped_not_eased (cur : SectionConfig) (sec : String) (dt : ℚ) :
    (stepCurrentConfig cur sec dt).color = (targetConfig sec).color ∧
    ∀ F : NumField, fieldVal F (stepCurrentConfig cur sec dt) =
      lerp (fieldVal F cur) (fieldVal F (targetConfig sec)) (5/2 * dt) := by
  refine ⟨rfl, fun F => ?_⟩
  rw [stepCurrentConfig, fieldVal_step]
  rfl

/-- C8: from an arbitrary current state (in particular one reached
mid-transition before convergence to a previous target), a frame step
toward the new target changes each numeric field by at most the rate
fraction 5/2 * dt of the remaining distance to the new target. -/
theorem retarget_no_snap (cur : SectionConfig) (sec : String) (dt : ℚ)
    (hdt : 0 ≤ dt) (F : NumField) :
    |fieldVal F (stepCurrentConfig cur sec dt) - fieldVal F cur| ≤
      5/2 * dt * |fieldVal F (targetConfig sec) - fieldVal F cur| := by
  rw [stepCurrentConfig, fieldVal_step, lerp_sub_self, abs_mul, lerpFactor,
    abs_of_nonneg (by linarith : (0:ℚ) ≤ 5/2 * dt)]
  rw [mul_comm]
  exact le_refl _

/-- Witness for retarget_no_snap at a concrete input. -/
theorem retarget_no_snap_witness :
    (0:ℚ) ≤ 1/10 ∧
    |fieldVal NumField.scale (stepCurrentConfig heroConfig "agency" (1/10)) -
        fieldVal NumField.scale heroConfig| ≤
      5/2 * (1/10) *
        |fieldVal NumField.scale (targetConfig "agency") -
          fieldVal NumField.scale heroConfig| :=
  ⟨by norm_num, retarget_no_snap heroConfig "agency" (1/10) (by norm_num) NumField.scale⟩

-- Helper: a lerp with a blend factor between 0 and 1 stays between the
-- endpoints.

theorem lerp_between (c t f : ℚ) (hf0 : 0 ≤ f) (hf1 : f ≤ 1) :
    min c t ≤ lerp c t f ∧ lerp c t f ≤ max c t := by
  rcases le_total c t with h | h
  · rw [min_eq_left h, max_eq_right h]
    unfold lerp
    constructor <;> nlinarith
  · rw [min_eq_right h, max_eq_left h]
    unfold lerp
    constructor <;> nlinarith

/-- C3 counterexample: at frame time dt = 1 the blend factor is 5/2, and
the easing step overshoots: starting from the hero configuration with
the work section active, the distortion field leaves the interval
between current and target and the claimed remaining-distance equality
fails. -/
theorem single_step_bound_counterexample :
    ¬ (min (fieldVal NumField.distortion heroConfig)
          (fieldVal NumField.distortion (targetConfig "work")) ≤
        fieldVal NumField.distortion (stepCurrentConfig heroConfig "work" 1) ∧
       fieldVal NumField.distortion (stepCurrentConfig heroConfig "work" 1) ≤
        max (fieldVal NumField.distortion heroConfig)
          (fieldVal NumField.distortion (targetConfig "work")) ∧
       |fieldVal NumField.distortion (stepCurrentConfig heroConfig "work" 1) -
          fieldVal NumField.distortion (targetConfig "work")| =
        (1 - 5/2 * 1) *
          |fieldVal NumField.distortion heroConfig -
            fieldVal NumField.distortion (targetConfig "work")|) := by
  have e1 : fieldVal NumField.distortion (stepCurrentConfig heroConfig "work" 1) =
      -(3/5) := by
    simp [stepCurrentConfig, stepCurrentConfigOf, targetConfigOf, tableLookup,
      sectionConfigsTable, fieldVal, lerp, lerpFactor, heroConfig, workConfig]
    norm_num
  have e2 : fieldVal NumField.distortion heroConfig = 2/5 := rfl
  have e3 : fieldVal NumField.distortion (targetConfig "work") = 0 := by
    simp [targetConfig, targetConfigOf, tableLookup, sectionConfigsTable,
      workConfig, fieldVal]
  rintro ⟨h1, -, -⟩
  rw [e1, e2, e3, min_eq_right (by norm_num : (0:ℚ) ≤ 2/5)] at h1
  norm_num at h1

/-- C3 amended: for 0 ≤ dt ≤ 2/5 (blend factor between 0 and 1), a
single easing step moves each numeric field by at most the rate
fraction 5/2 * dt of the remaining distance, never past the target:
the new value lies between current and target, and the remaining
distance satisfies |new - t| = (1 - 5/2 * dt) * |c - t|. -/
theorem single_step_bound (cur : SectionConfig) (sec : String) (dt : ℚ)
    (h0 : 0 ≤ dt) (h1 : dt ≤ 2/5) (F : NumField) :
    |fieldVal F (stepCurrentConfig cur sec dt) - fieldVal F cur| ≤
      5/2 * dt * |fieldVal F (targetConfig sec) - fieldVal F cur| ∧
    min (fieldVal F cur) (fieldVal F (targetConfig sec)) ≤
      fieldVal F (stepCurrentConfig cur sec dt) ∧
    fieldVal F (stepCurrentConfig cur sec dt) ≤
      max (fieldVal F cur) (fieldVal F (targetConfig sec)) ∧
    |fieldVal F (stepCurrentConfig cur sec dt) - fieldVal F (targetConfig sec)| =
      (1 - 5/2 * dt) * |fieldVal F cur - fieldVal F (targetConfig sec)| := by
  have hf0 : (0:ℚ) ≤ 5/2 * dt := by linarith
  have hf1 : (5:ℚ)/2 * dt ≤ 1 := by linarith
  have hstep : fieldVal F (stepCurrentConfig cur sec dt) =
      lerp (fieldVal F cur) (fieldVal F (targetConfig sec)) (5/2 * dt) := by
    rw [stepCurrentConfig, fieldVal_step]; rfl
  refine ⟨?_, ?_, ?_, ?_⟩
  · rw [hstep, lerp_sub_self, abs_mul, abs_of_nonneg hf0, mul_comm]
  · rw [hstep]
    exact (lerp_between _ _ _ hf0 hf1).1
  · rw [hstep]
    exact (lerp_between _ _ _ hf0 hf1).2
  · rw [hstep, lerp_sub_target, abs_mul, abs_of_nonneg (by linarith : (0:ℚ) ≤ 1 - 5/2 * dt)]

/-- Witness for single_step_bound at a concrete input. -/
theorem single_step_bound_witness :
    (0:ℚ) ≤ 1/5 ∧ (1:ℚ)/5 ≤ 2/5 ∧
    (|fieldVal NumField.distortion (stepCurrentConfig heroConfig "work" (1/5)) -
        fieldVal NumField.distortion heroConfig| ≤
      5/2 * (1/5) *
        |fieldVal NumField.distortion (targetConfig "work") -
          fieldVal NumField.distortion heroConfig| ∧
    min (fieldVal NumField.distortion heroConfig)
        (fieldVal NumField.distortion (targetConfig "work")) ≤
      fieldVal NumField.distortion (stepCurrentConfig heroConfig "work" (1/5)) ∧
    fieldVal NumField.distortion (stepCurrentConfig heroConfig "work" (1/5)) ≤
      max (fieldVal NumField.distortion heroConfig)
        (fieldVal NumField.distortion (targetConfig "work")) ∧
    |fieldVal NumField.distortion (stepCurrentConfig heroConfig "work" (1/5)) -
        fieldVal NumField.distortion (targetConfig "work")| =
      (1 - 5/2 * (1/5)) *
        |fieldVal NumField.distortion heroConfig -
          fieldVal NumField.distortion (targetConfig "work")|) :=
  ⟨by norm_num, by norm_num,
    single_step_bound heroConfig "work" (1/5) (by norm_num) (by norm_num)
      NumField.distortion⟩

-- Iterated easing: closed form of the remaining distance

theorem iter_sub_target (sec : String) (dt : ℚ) (init : SectionConfig)
    (F : NumField) (n : ℕ) :
    fieldVal F (iterCurrent sec dt init n) - fieldVal F (targetConfig sec) =
      (1 - 5/2 * dt) ^ n *
        (fieldVal F init - fieldVal F (targetConfig sec)) := by
  induction n with
  | zero => simp [iterCurrent]
  | succ n ih =>
    have hstep : fieldVal F (iterCurrent sec dt init (n + 1)) =
        lerp (fieldVal F (iterCurrent sec dt init n))
          (fieldVal F (targetConfig sec)) (5/2 * dt) := by
      show fieldVal F (stepCurrentConfig (iterCurrent sec dt init n) sec dt) = _
      rw [stepCurrentConfig, fieldVal_step]
      rfl
    rw [hstep, lerp_sub_target, ih]
    ring

theorem abs_iter_sub_target (sec : String) (dt : ℚ) (init : SectionConfig)
    (F : NumField) (n : ℕ) :
    |fieldVal F (iterCurrent sec dt init n) - fieldVal F (targetConfig sec)| =
      |1 - 5/2 * dt| ^ n *
        |fieldVal F init - fieldVal F (targetConfig sec)| := by
  rw [iter_sub_target, abs_mul, abs_pow]

-- Helper: a geometric factor below one eventually scales any constant
-- under any positive tolerance, uniformly from some index on.

theorem exists_pow_mul_lt (r d eps : ℚ) (hr0 : 0 ≤ r) (hr1 : r < 1)
    (heps : 0 < eps) : ∃ N, ∀ n ≥ N, r ^ n * d < eps := by
  rcases le_or_lt d 0 with hd | hd
  · exact ⟨0, fun n _ =>
      lt_of_le_of_lt (mul_nonpos_of_nonneg_of_nonpos (pow_nonneg hr0 n) hd) heps⟩
  · obtain ⟨N, hN⟩ := exists_pow_lt_of_lt_one (div_pos heps hd) hr1
    refine ⟨N, fun n hn => ?_⟩
    have h1 : r ^ n ≤ r ^ N := pow_le_pow_of_le_one hr0 hr1.le hn
    have h2 : r ^ n * d ≤ r ^ N * d := mul_le_mul_of_nonneg_right h1 hd.le
    have h3 : r ^ N * d < eps / d * d := mul_lt_mul_of_pos_right hN hd
    rw [div_mul_cancel₀ _ hd.ne'] at h3
    linarith

theorem fieldDist_le_max (a b : SectionConfig) (F : NumField) :
    |fieldVal F a - fieldVal F b| ≤ maxFieldDist a b := by
  cases F with
  | distortion =>
    simp only [fieldVal, maxFieldDist]
    exact le_trans (le_trans (le_trans (le_max_left _ _) (le_max_left _ _))
      (le_max_left _ _)) (le_max_left _ _)
  | chromaticAberration =>
    simp only [fieldVal, maxFieldDist]
    exact le_trans (le_trans (le_trans (le_max_right _ _) (le_max_left _ _))
      (le_max_left _ _)) (le_max_left _ _)
  | roughness =>
    simp only [fieldVal, maxFieldDist]
    exact le_trans (le_trans (le_max_right _ _) (le_max_left _ _)) (le_max_left _ _)
  | scale =>
    simp only [fieldVal, maxFieldDist]
    exact le_trans (le_max_right _ _) (le_max_left _ _)
  | speed =>
    simp only [fieldVal, maxFieldDist]
    exact le_max_right _ _

/-- C2 amended: for every section in the table, iterating the frame
step with a fixed frame time dt satisfying 0 < dt < 4/5 (so the blend
factor 5/2 * dt lies strictly between 0 and 2) drives every numeric
field of the current vector within any positive tolerance of the target
after finitely many frames, from any initial vector. -/
theorem easing_converges (name : String) (cfg : SectionConfig)
    (hname : SECTION_CONFIGS name = some cfg) (init : SectionConfig)
    (dt : ℚ) (hdt0 : 0 < dt) (hdt1 : dt < 4/5) (eps : ℚ) (heps : 0 < eps) :
    ∃ N, ∀ n ≥ N, ∀ F : NumField,
      |fieldVal F (iterCurrent name dt init n) - fieldVal F cfg| < eps := by
  have htarget : targetConfig name = cfg := by
    rw [targetConfig, targetConfigOf]
    rw [SECTION_CONFIGS] at hname
    rw [hname]
    rfl
  have hr0 : (0:ℚ) ≤ |1 - 5/2 * dt| := abs_nonneg _
  have hr1 : |1 - 5/2 * dt| < 1 := by
    rw [abs_lt]
    constructor <;> linarith
  obtain ⟨N, hN⟩ := exists_pow_mul_lt (|1 - 5/2 * dt|) (maxFieldDist init cfg)
    eps hr0 hr1 heps
  refine ⟨N, fun n hn F => ?_⟩
  have h1 := abs_iter_sub_target name dt init F n
  rw [htarget] at h1
  rw [h1]
  have h2 : |1 - 5/2 * dt| ^ n * |fieldVal F init - fieldVal F cfg| ≤
      |1 - 5/2 * dt| ^ n * maxFieldDist init cfg :=
    mul_le_mul_of_nonneg_left (fieldDist_le_max init cfg F) (pow_nonneg hr0 n)
  exact lt_of_le_of_lt h2 (hN n hn)

/-- Witness for easing_converges at a concrete input. -/
theorem easing_converges_witness :
    SECTION_CONFIGS "work" = some workConfig ∧
    (0:ℚ) < 1/2 ∧ (1:ℚ)/2 < 4/5 ∧ (0:ℚ) < 1 ∧
    ∃ N, ∀ n ≥ N, ∀ F : NumField,
      |fieldVal F (iterCurrent "work" (1/2) heroConfig n) - fieldVal F workConfig| < 1 :=
  ⟨by simp [SECTION_CONFIGS, tableLookup, sectionConfigsTable],
    by norm_num, by norm_num, by norm_num,
    easing_converges "work" workConfig
      (by simp [SECTION_CONFIGS, tableLookup, sectionConfigsTable]) heroConfig (1/2)
      (by norm_num) (by norm_num) 1 (by norm_num)⟩

/-- C2 counterexample: the claim quantifies over every fixed positive
frame time, but at dt = 1 the blend factor is 5/2 and the iteration
diverges: with the work section active and the code initial vector
(the hero configuration), the distortion field never comes within 2/5
of the target, so no tolerance below 2/5 is ever met. -/
theorem easing_converges_counterexample :
    (0:ℚ) < 1 ∧ SECTION_CONFIGS "work" = some workConfig ∧
    ¬ (∀ eps : ℚ, 0 < eps → ∃ N, ∀ n ≥ N, ∀ F : NumField,
        |fieldVal F (iterCurrent "work" 1 heroConfig n) - fieldVal F workConfig| < eps) := by
  refine ⟨by norm_num, by simp [SECTION_CONFIGS, tableLookup, sectionConfigsTable],
    fun h => ?_⟩
  obtain ⟨N, hN⟩ := h (2/5) (by norm_num)
  have hval := hN N le_rfl NumField.distortion
  have htarget : targetConfig "work" = workConfig := by
    simp [targetConfig, targetConfigOf, tableLookup, sectionConfigsTable]
  have h1 := abs_iter_sub_target "work" 1 heroConfig NumField.distortion N
  rw [htarget] at h1
  have h2 : |1 - 5/2 * (1:ℚ)| = 3/2 := by norm_num
  have h3 : |fieldVal NumField.distortion heroConfig -
      fieldVal NumField.distortion workConfig| = 2/5 := by
    norm_num [fieldVal, heroConfig, workConfig]
  rw [h2, h3] at h1
  have h4 : (1:ℚ) ≤ (3/2) ^ N := one_le_pow₀ (by norm_num)
  have h5 : (2:ℚ)/5 ≤ (3/2) ^ N * (2/5) := by nlinarith
  rw [h1] at hval
  linarith

-- Shape-morphing variant

theorem mobileFactor_pos (w : ℚ) : 0 < mobileFactor w := by
  unfold mobileFactor
  split <;> norm_num

theorem naturalSize_pos (p : Primitive) : 0 < naturalSize p := by
  cases p <;> norm_num [naturalSize]

theorem currentShape_mem (s : String) :
    currentShape s = "knot" ∨ currentShape s = "prism" ∨
    currentShape s = "capsule" ∨ currentShape s = "orb" := by
  unfold currentShape MORPH_SECTION_CONFIGS
  by_cases h1 : s = "hero"
  · simp [h1, heroShapeConfig]
  by_cases h2 : s = "work"
  · simp [h1, h2, workShapeConfig]
  by_cases h3 : s = "agency"
  · simp [h1, h2, h3, agencyShapeConfig]
  by_cases h4 : s = "contact"
  · simp [h1, h2, h3, h4, contactShapeConfig]
  · simp [h1, h2, h3, h4]

theorem shapeName_inj (p q : Primitive) (h : shapeName p = shapeName q) :
    p = q := by
  cases p <;> cases q <;> simp_all [shapeName]

/-- C4: in the shape-morphing variant all four candidate primitives are
always present in the scene graph, on every frame each primitive scale
is eased toward its target scale by a vector lerp with blend factor
delta * 4, the target is the natural size times the mobile adjustment
for the primitive carrying the active shape and zero for the others,
and for every active-section identifier exactly one primitive has a
nonzero target scale. -/
theorem morph_scale_targets (sec : String) (w : ℚ) :
    (∀ p : Primitive, p ∈ morphingShapeSceneGraph) ∧
    (∀ (scales : Primitive → ℚ) (delta : ℚ) (p : Primitive),
      morphFrame scales sec w delta p =
        scales p + (targetScale sec w p - scales p) * (delta * 4)) ∧
    (∀ p : Primitive, targetScale sec w p =
      if shapeName p = currentShape sec then naturalSize p * mobileFactor w
      else 0) ∧
    (∃! p : Primitive, targetScale sec w p ≠ 0) := by
  refine ⟨?_, ?_, fun _ => rfl, ?_⟩
  · intro p
    cases p <;> simp [morphingShapeSceneGraph]
  · intro scales delta p
    rfl
  · have hpick : ∃ p : Primitive, shapeName p = currentShape sec := by
      rcases currentShape_mem sec with h | h | h | h
      · exact ⟨Primitive.knot, h.symm⟩
      · exact ⟨Primitive.prism, h.symm⟩
      · exact ⟨Primitive.capsule, h.symm⟩
      · exact ⟨Primitive.orb, h.symm⟩
    obtain ⟨p, hp⟩ := hpick
    refine ⟨p, ?_, ?_⟩
    · show targetScale sec w p ≠ 0
      have heq : targetScale sec w p = naturalSize p * mobileFactor w := by
        unfold targetScale
        rw [if_pos hp]
      rw [heq]
      exact ne_of_gt (mul_pos (naturalSize_pos p) (mobileFactor_pos w))
    · intro q hq
      by_contra hne
      have hqname : shapeName q ≠ currentShape sec := by
        intro hcontra
        exact hne (shapeName_inj q p (hcontra.trans hp.symm))
      have : targetScale sec w q = 0 := by
        unfold targetScale
        rw [if_neg hqname]
      exact hq this

-- Mouse normalization

/-- C5: for every mouse-move event, with client coordinates inside the
window (0 ≤ clientX ≤ innerWidth, 0 ≤ clientY ≤ innerHeight, both
dimensions positive), the stored pointer coordinates lie in [-1, 1] on
both axes. -/
theorem mouse_normalized (clientX clientY innerWidth innerHeight : ℚ)
    (hw : 0 < innerWidth) (hh : 0 < innerHeight)
    (hx0 : 0 ≤ clientX) (hx1 : clientX ≤ innerWidth)
    (hy0 : 0 ≤ clientY) (hy1 : clientY ≤ innerHeight) :
    -1 ≤ (normMouse clientX clientY innerWidth innerHeight).x ∧
    (normMouse clientX clientY innerWidth innerHeight).x ≤ 1 ∧
    -1 ≤ (normMouse clientX clientY innerWidth innerHeight).y ∧
    (normMouse clientX clientY innerWidth innerHeight).y ≤ 1 := by
  have hrx0 : 0 ≤ clientX / innerWidth := div_nonneg hx0 hw.le
  have hrx1 : clientX / innerWidth ≤ 1 := (div_le_one hw).mpr hx1
  have hry0 : 0 ≤ clientY / innerHeight := div_nonneg hy0 hh.le
  have hry1 : clientY / innerHeight ≤ 1 := (div_le_one hh).mpr hy1
  unfold normMouse
  refine ⟨by linarith, by linarith, by linarith, by linarith⟩

/-- Witness for mouse_normalized at a concrete input. -/
theorem mouse_normalized_witness :
    (0:ℚ) < 1920 ∧ (0:ℚ) < 1080 ∧ (0:ℚ) ≤ 480 ∧ (480:ℚ) ≤ 1920 ∧
    (0:ℚ) ≤ 270 ∧ (270:ℚ) ≤ 1080 ∧
    (-1 ≤ (normMouse 480 270 1920 1080).x ∧
      (normMouse 480 270 1920 1080).x ≤ 1 ∧
      -1 ≤ (normMouse 480 270 1920 1080).y ∧
      (normMouse 480 270 1920 1080).y ≤ 1) :=
  ⟨by norm_num, by norm_num, by norm_num, by norm_num, by norm_num, by norm_num,
    mouse_normalized 480 270 1920 1080 (by norm_num) (by norm_num)
      (by norm_num) (by norm_num) (by norm_num) (by norm_num)⟩

-- Error boundary

/-- C6: once an error is recorded in the boundary state, the render
method ignores the children and produces the static fallback element
containing the error message, independently of the children and never
an empty output. -/
theorem error_boundary_fallback (err : String) (children : Node) :
    boundaryRender (getDerivedStateFromError err) children =
      Node.elem "div"
        [Node.elem "h1" [Node.text "Something went wrong."],
         Node.elem "pre" [Node.text err]] ∧
    (∀ other : Node,
      boundaryRender (getDerivedStateFromError err) children =
        boundaryRender (getDerivedStateFromError err) other) ∧
    boundaryRender initialEBState children = children := by
  exact ⟨rfl, fun _ => rfl, rfl⟩

-- Configuration immutability

/-- C9: one full frame of the single-shape scene writes only the
current parameter vector and the mesh and material fields: the section
configuration table it reads is returned unchanged, every key looks up
to the same entry afterwards, and every field of every section record
is unchanged. -/
theorem configs_immutable (w : WorldState) (sec : String)
    (delta viewportWidth : ℚ) (m : Mouse) :
    (veroLensFrame w sec delta viewportWidth m).configs = w.configs ∧
    (∀ s : String,
      tableLookup (veroLensFrame w sec delta viewportWidth m).configs s =
        tableLookup w.configs s) ∧
    (veroLensFrame w sec delta viewportWidth m).configs.hero = w.configs.hero ∧
    (veroLensFrame w sec delta viewportWidth m).configs.work = w.configs.work ∧
    (veroLensFrame w sec delta viewportWidth m).configs.agency = w.configs.agency ∧
    (veroLensFrame w sec delta viewportWidth m).configs.contact = w.configs.contact := by
  exact ⟨rfl, fun _ => rfl, rfl, rfl, rfl, rfl⟩

-- Lookup fallback under JS member-access semantics

/-- C10 counterexample: the identifier toString is none of the four
configured names, yet the bracket access finds the truthy member
inherited from Object.prototype, so the hero fallback of the animator
target expression does not trigger there. -/
theorem prototype_lookup_counterexample :
    ("toString" ≠ "hero" ∧ "toString" ≠ "work" ∧ "toString" ≠ "agency" ∧
      "toString" ≠ "contact") ∧
    animatorTargetJs "toString" = JsLookup.inherited ∧
    animatorTargetJs "toString" ≠ JsLookup.own heroConfig := by
  refine ⟨⟨by decide, by decide, by decide, by decide⟩, ?_, ?_⟩
  · simp [animatorTargetJs, bracketLookup, tableLookup, sectionConfigsTable,
      objectPrototypeKeys, jsTruthy]
  · simp [animatorTargetJs, bracketLookup, tableLookup, sectionConfigsTable,
      objectPrototypeKeys, jsTruthy]

/-- C10 amended: for every active-section identifier outside the four
configured names the shape morpher falls back to the knot shape, and
if the identifier is moreover not a property name inherited from
Object.prototype, the animator target expression falls back to the
hero configuration; on inherited property names the bracket access is
truthy and the hero fallback does not trigger. -/
theorem lookup_fallback_amended (s : String) (h1 : s ≠ "hero")
    (h2 : s ≠ "work") (h3 : s ≠ "agency") (h4 : s ≠ "contact") :
    currentShape s = "knot" ∧
    (s ∉ objectPrototypeKeys → animatorTargetJs s = JsLookup.own heroConfig) := by
  constructor
  · simp [currentShape, MORPH_SECTION_CONFIGS, h1, h2, h3, h4]
  · intro h5
    simp [animatorTargetJs, bracketLookup, tableLookup, sectionConfigsTable,
      h1, h2, h3, h4, h5, jsTruthy]

/-- Witness for lookup_fallback_amended at a concrete input. -/
theorem lookup_fallback_amended_witness :
    (("splash" ≠ "hero") ∧ ("splash" ≠ "work") ∧ ("splash" ≠ "agency") ∧
      ("splash" ≠ "contact") ∧ "splash" ∉ objectPrototypeKeys) ∧
    (currentShape "splash" = "knot" ∧
      animatorTargetJs "splash" = JsLookup.own heroConfig) :=
  ⟨⟨by decide, by decide, by decide, by decide, by decide⟩,
    ⟨(lookup_fallback_amended "splash" (by decide) (by decide) (by decide)
        (by decide)).1,
     (lookup_fallback_amended "splash" (by decide) (by decide) (by decide)
        (by decide)).2 (by decide)⟩⟩

end Veromedia
